import Mathlib

/-!
Formal model of the physics/sampling core of the opus-atom repository.

JavaScript numbers are modelled as real numbers, `Math.random()` as an
explicit stream `rng : ℕ → ℝ` of draws consumed at increasing indices, the
bounded `while` loop of the rejection sampler as a fuel-indexed recursion
(one unit of fuel per attempt, so fuel encodes `attempts < maxAttempts`),
and the probability cache (a JS `Map`) as an association list.
`Math.atan2 y x` is modelled by the complex argument of `x + y i`, which
agrees with it on all of ℝ² (including `atan2 0 0 = 0`).
Definitions follow `src/physics/radialWaveFunction.js`,
`src/physics/sphericalHarmonics.js`, `src/physics/probabilityDensity.js`
and `src/physics/orbitalSampler.js`.
-/

namespace OpusAtom

noncomputable section
open Classical

/-- Bohr radius constant from radialWaveFunction.js (scaled to 1). -/
def BOHR_RADIUS : ℝ := 1

/-- Model of `factorial` from radialWaveFunction.js: returns 1 for negative
arguments, otherwise the mathematical factorial (the memo table is a pure
optimization and does not change the value). -/
def factorial (n : ℤ) : ℝ :=
  if n < 0 then 1 else (Nat.factorial n.toNat : ℝ)

/-- Model of `laguerrePolynomial(n, alpha, x)` from radialWaveFunction.js:
the three-term recurrence for the associated Laguerre polynomial. -/
def laguerrePolynomial : ℕ → ℝ → ℝ → ℝ
  | 0, _, _ => 1
  | 1, alpha, x => 1 + alpha - x
  | (k+2), alpha, x =>
      ((2 * ((k:ℝ)+2) - 1 + alpha - x) * laguerrePolynomial (k+1) alpha x
        - (((k:ℝ)+2) - 1 + alpha) * laguerrePolynomial k alpha x) / ((k:ℝ)+2)

/-- Model of `radialNormalization(n, l, Z)` from radialWaveFunction.js:
`sqrt((2Z/(n·a₀))³ · (n−l−1)! / (2n·((n+l)!)³))` exactly as coded
(note the cubed `(n+l)!` in the denominator). -/
def radialNormalization (n l : ℤ) (Z : ℝ) : ℝ :=
  Real.sqrt ((2 * Z / ((n:ℝ) * BOHR_RADIUS))^3 * factorial (n - l - 1)
    / (2 * (n:ℝ) * (factorial (n + l))^3))

/-- Model of `radialWaveFunction(n, l, r, Z)` from radialWaveFunction.js:
returns 0 on invalid quantum numbers, otherwise
`N · ρ^l · exp(−ρ/2) · L_{n−l−1}^{2l+1}(ρ)` with `ρ = 2Zr/(n·a₀)`. -/
def radialWaveFunction (n l : ℤ) (r Z : ℝ) : ℝ :=
  if n < 1 ∨ l < 0 ∨ l ≥ n then 0
  else
    let rho := (2 * Z * r) / ((n:ℝ) * BOHR_RADIUS)
    let N := radialNormalization n l Z
    let rhoL := rho ^ l.toNat
    let expTerm := Real.exp (-rho / 2)
    let laguerre := laguerrePolynomial (n - l - 1).toNat ((2 * l + 1 : ℤ) : ℝ) rho
    N * rhoL * expTerm * laguerre

/-- Model of `maxRadialExtent(n, l, Z)` from radialWaveFunction.js. -/
def maxRadialExtent (n l : ℤ) (Z : ℝ) : ℝ :=
  (4 * (n:ℝ) * (n:ℝ) / Z) * BOHR_RADIUS

/-- Model of `mostProbableRadius(n, l, Z)` from radialWaveFunction.js. -/
def mostProbableRadius (n l : ℤ) (Z : ℝ) : ℝ :=
  (((n:ℝ) * (n:ℝ) - (l:ℝ) * ((l:ℝ) + 1) / 2) / Z) * BOHR_RADIUS

/-- Product of the odd numbers `1·3·⋯·(2k−1)`, the value of the
`doubleFactorial` loop in `legendrePolynomial` of sphericalHarmonics.js. -/
def oddDoubleFactorial : ℕ → ℝ
  | 0 => 1
  | (k+1) => oddDoubleFactorial k * (2 * ((k:ℝ)+1) - 1)

/-- Upward recurrence loop of `legendrePolynomial` in sphericalHarmonics.js:
after `j` iterations the pair holds `(P_{ll−2}, P_{ll−1})` for
`ll = absM + 2 + j`; each step computes
`P_ll = (x(2ll−1)P_{ll−1} − (ll+absM−1)P_{ll−2})/(ll−absM)`. -/
def legendreUp (x : ℝ) (absM : ℕ) (pmm pmm1 : ℝ) : ℕ → ℝ × ℝ
  | 0 => (pmm, pmm1)
  | (j+1) =>
      let p := legendreUp x absM pmm pmm1 j
      let ll : ℝ := ((absM + 2 + j : ℕ) : ℝ)
      (p.2, (x * (2 * ll - 1) * p.2 - (ll + (absM:ℝ) - 1) * p.1) / (ll - (absM:ℝ)))

/-- Model of `legendrePolynomial(l, m, x)` from sphericalHarmonics.js:
takes `|m|` first, returns 0 when `|m| > l`, seeds with
`P_m^m = (−1)^m (2m−1)!! (1−x²)^{m/2}` and `P_{m+1}^m = x(2m+1)P_m^m`,
then runs the upward recurrence. -/
def legendrePolynomial (l m : ℤ) (x : ℝ) : ℝ :=
  let absM := |m|
  if absM > l then 0
  else
    let k := absM.toNat
    let Pmm : ℝ :=
      if absM > 0 then (-1)^k * oddDoubleFactorial k * (Real.sqrt (1 - x * x))^k
      else 1
    if l = absM then Pmm
    else
      let Pmm1 := x * (2 * (absM:ℝ) + 1) * Pmm
      if l = absM + 1 then Pmm1
      else (legendreUp x k Pmm Pmm1 (l - absM - 1).toNat).2

/-- Model of `sphericalHarmonicNormalization(l, m)` from
sphericalHarmonics.js: `sqrt((2l+1)·(l−|m|)! / (4π·(l+|m|)!))`. -/
def sphericalHarmonicNormalization (l m : ℤ) : ℝ :=
  let absM := |m|
  Real.sqrt ((2 * (l:ℝ) + 1) * factorial (l - absM) / (4 * Real.pi * factorial (l + absM)))

/-- Model of `sphericalHarmonic(l, m, theta, phi)` from
sphericalHarmonics.js: returns 0 when `l < 0` or `|m| > l`, otherwise the
real spherical harmonic built from the Legendre value at `cos θ`. -/
def sphericalHarmonic (l m : ℤ) (theta phi : ℝ) : ℝ :=
  if l < 0 ∨ |m| > l then 0
  else
    let N := sphericalHarmonicNormalization l m
    let P := legendrePolynomial l |m| (Real.cos theta)
    if m > 0 then N * Real.sqrt 2 * P * Real.cos ((m:ℝ) * phi)
    else if m < 0 then N * Real.sqrt 2 * P * Real.sin ((|m| : ℤ) * phi)
    else N * P

/-- Model of `probabilityDensity(n, l, m, r, theta, phi, Z)` from
probabilityDensity.js: `R·R·Y·Y`. -/
def probabilityDensity (n l m : ℤ) (r theta phi Z : ℝ) : ℝ :=
  let R := radialWaveFunction n l r Z
  let Y := sphericalHarmonic l m theta phi
  R * R * Y * Y

/-- Cartesian triple returned by `sphericalToCartesian`. -/
structure Vec3 where
  x : ℝ
  y : ℝ
  z : ℝ

/-- Model of `sphericalToCartesian(r, theta, phi)` from
probabilityDensity.js. -/
def sphericalToCartesian (r theta phi : ℝ) : Vec3 :=
  let sinTheta := Real.sin theta
  ⟨r * sinTheta * Real.cos phi, r * sinTheta * Real.sin phi, r * Real.cos theta⟩

/-- Model of `Math.atan2(y, x)`: the argument of the complex number
`x + y·i`, which coincides with the JS two-argument arctangent on every
input (both return 0 at the origin and values in (−π, π]). -/
def atan2 (y x : ℝ) : ℝ := Complex.arg ⟨x, y⟩

/-- Spherical triple returned by `cartesianToSpherical`. -/
structure Spherical where
  r : ℝ
  theta : ℝ
  phi : ℝ

/-- Model of `cartesianToSpherical(x, y, z)` from probabilityDensity.js:
returns `(0,0,0)` when the radius is 0, otherwise
`(r, acos(z/r), atan2(y,x))`. -/
def cartesianToSpherical (x y z : ℝ) : Spherical :=
  let r := Real.sqrt (x * x + y * y + z * z)
  if r = 0 then ⟨0, 0, 0⟩
  else ⟨r, Real.arccos (z / r), atan2 y x⟩

/-- Cache key `(n, l, m, Z)`; the source keys its `Map` by the string
`n,l,m,Z`, which identifies exactly this tuple. -/
abbrev CacheKey := ℤ × ℤ × ℤ × ℝ

/-- The max-probability cache of probabilityDensity.js, modelled as an
association list in insertion order. -/
abbrev ProbCache := List (CacheKey × ℝ)

/-- Lookup in the cache model (`Map.get` / `Map.has`). -/
def cacheLookup : ProbCache → CacheKey → Option ℝ
  | [], _ => none
  | (k', v) :: rest, k => if k' = k then some v else cacheLookup rest k

/-- Loop of `findMaxProbability(n, l, m, Z, samples)` from
probabilityDensity.js: each sample consumes three draws
(`r`, `cos θ`, `φ`) and keeps the running maximum of the density. -/
def findMaxProbabilityLoop (rng : ℕ → ℝ) (n l m : ℤ) (Z maxR : ℝ) :
    ℕ → ℕ → ℝ → ℝ
  | 0, _, maxP => maxP
  | (k+1), i, maxP =>
      let r := rng i * maxR
      let theta := Real.arccos (2 * rng (i+1) - 1)
      let phi := rng (i+2) * (2 * Real.pi)
      let P := probabilityDensity n l m r theta phi Z
      findMaxProbabilityLoop rng n l m Z maxR k (i+3) (if P > maxP then P else maxP)

/-- Model of `findMaxProbability(n, l, m, Z, samples)` from
probabilityDensity.js, including the final 1.2 safety margin. -/
def findMaxProbability (rng : ℕ → ℝ) (n l m : ℤ) (Z : ℝ) (samples : ℕ) : ℝ :=
  let maxR := maxRadialExtent n l Z
  findMaxProbabilityLoop rng n l m Z maxR samples 0 0 * 1.2

/-- Model of `getMaxProbability(n, l, m, Z)` from probabilityDensity.js:
returns the cached value when the key is present, otherwise computes
`findMaxProbability(n,l,m,Z,2000)`, stores it and returns it.  The pair is
the returned value together with the cache after the call. -/
def getMaxProbability (rng : ℕ → ℝ) (n l m : ℤ) (Z : ℝ) (c : ProbCache) :
    ℝ × ProbCache :=
  let key : CacheKey := (n, l, m, Z)
  match cacheLookup c key with
  | some v => (v, c)
  | none =>
      let v := findMaxProbability rng n l m Z 2000
      (v, c ++ [(key, v)])

/-- Model of `clearProbabilityCache()` from probabilityDensity.js. -/
def clearProbabilityCache : ProbCache := []

/-- Loop of `estimateMaxProbability` from orbitalSampler.js: each of the
5000 samples consumes four draws (branch choice, `r`, `cos θ`, `φ`),
clamps `r` to `[0.01, maxR]` and keeps the maximum weighted density. -/
def estimateMaxProbabilityLoop (rng : ℕ → ℝ) (n l m : ℤ) (Z maxR rPeak : ℝ) :
    ℕ → ℕ → ℝ → ℝ
  | 0, _, maxP => maxP
  | (k+1), i, maxP =>
      let r0 := if rng i < 0.7 then rPeak * (0.3 + rng (i+1) * 1.4) else maxR * rng (i+1)
      let r := max 0.01 (min r0 maxR)
      let theta := Real.arccos (2 * rng (i+2) - 1)
      let phi := rng (i+3) * (2 * Real.pi)
      let P := probabilityDensity n l m r theta phi Z
      let weightedP := P * (r * r * Real.sin theta)
      estimateMaxProbabilityLoop rng n l m Z maxR rPeak k (i+4)
        (if weightedP > maxP then weightedP else maxP)

/-- Model of `estimateMaxProbability(n, l, m, Z, maxR)` from
orbitalSampler.js, including the final 1.5 safety margin. -/
def estimateMaxProbability (rng : ℕ → ℝ) (n l m : ℤ) (Z maxR : ℝ) : ℝ :=
  let rPeak := mostProbableRadius n l Z
  estimateMaxProbabilityLoop rng n l m Z maxR rPeak 5000 0 0 * 1.5

/-- State of the rejection-sampling `while` loop in `sampleOrbital`:
the coordinates written so far (`points.length` is the source's
`pointIndex`), the attempt counter, the working ceiling `maxP`, and the
index of the next unconsumed random draw. -/
structure SamplerState where
  points : List ℝ
  attempts : ℕ
  maxP : ℝ
  ridx : ℕ

/-- Candidate radius of one attempt: `maxR · u^(1/3)`. -/
def candidateR (maxR : ℝ) (rng : ℕ → ℝ) (i : ℕ) : ℝ :=
  maxR * (rng i) ^ ((1:ℝ)/3)

/-- Candidate polar angle of one attempt: `acos(2u − 1)`. -/
def candidateTheta (rng : ℕ → ℝ) (i : ℕ) : ℝ :=
  Real.arccos (2 * rng (i+1) - 1)

/-- Candidate azimuthal angle of one attempt: `u · 2π`. -/
def candidatePhi (rng : ℕ → ℝ) (i : ℕ) : ℝ :=
  rng (i+2) * (2 * Real.pi)

/-- Weighted density `P(r,θ,φ)·r²·sin θ` of the candidate generated from
draws `i`, `i+1`, `i+2` — the quantity the rejection test compares
against `uniform·maxP`. -/
def candidateWeightedP (n l m : ℤ) (Z maxR : ℝ) (rng : ℕ → ℝ) (i : ℕ) : ℝ :=
  let r := candidateR maxR rng i
  let theta := candidateTheta rng i
  let P := probabilityDensity n l m r theta (candidatePhi rng i) Z
  P * (r * r * Real.sin theta)

/-- One iteration of the `while` body of `sampleOrbital` from
orbitalSampler.js: increment `attempts`, generate a candidate from four
draws, append its Cartesian coordinates when
`uniform·maxP < weightedP`, then apply the adaptive doubling when
`attempts > 1000` and `pointIndex < attempts·0.01`. -/
def sampleStep (n l m : ℤ) (Z maxR : ℝ) (rng : ℕ → ℝ) (s : SamplerState) :
    SamplerState :=
  let attempts := s.attempts + 1
  let i := s.ridx
  let r := candidateR maxR rng i
  let theta := candidateTheta rng i
  let phi := candidatePhi rng i
  let weightedP := candidateWeightedP n l m Z maxR rng i
  let c := sphericalToCartesian r theta phi
  let points' :=
    if rng (i+3) * s.maxP < weightedP then s.points ++ [c.x, c.y, c.z] else s.points
  let maxP' :=
    if attempts > 1000 ∧ ((points'.length : ℝ) < (attempts : ℝ) * 0.01)
    then s.maxP * 2 else s.maxP
  ⟨points', attempts, maxP', i + 4⟩

/-- The `while (pointIndex < numPoints*3 && attempts < maxAttempts)` loop:
fuel counts the attempts still allowed, so positive fuel is exactly
`attempts < maxAttempts` for a run started with fuel `maxAttempts`. -/
def sampleLoop (n l m : ℤ) (Z maxR : ℝ) (rng : ℕ → ℝ) (numPoints : ℕ) :
    ℕ → SamplerState → SamplerState
  | 0, s => s
  | (fuel+1), s =>
      if s.points.length < numPoints * 3 then
        sampleLoop n l m Z maxR rng numPoints fuel (sampleStep n l m Z maxR rng s)
      else s

/-- Full run of `sampleOrbital(n, l, m, numPoints, Z)` from
orbitalSampler.js, returning the final loop state: the ceiling is first
estimated (consuming the first 20000 draws), then the loop runs with
attempt budget `numPoints · 100` starting from an empty buffer. -/
def sampleOrbitalRun (n l m : ℤ) (numPoints : ℕ) (Z : ℝ) (rng : ℕ → ℝ) :
    SamplerState :=
  let maxR := maxRadialExtent n l Z
  let maxP := estimateMaxProbability rng n l m Z maxR
  sampleLoop n l m Z maxR rng numPoints (numPoints * 100) ⟨[], 0, maxP, 20000⟩

/-- Model of `sampleOrbital(n, l, m, numPoints, Z)`: the flat coordinate
buffer accumulated by the run (the source's `slice(0, pointIndex)` on a
shortfall and the full array otherwise are both exactly the written
prefix, i.e. this list). -/
def sampleOrbital (n l m : ℤ) (numPoints : ℕ) (Z : ℝ) (rng : ℕ → ℝ) : List ℝ :=
  (sampleOrbitalRun n l m numPoints Z rng).points

/-- JS `a || b` on numbers (no NaN in the real-number model): `b` when
`a` is 0, otherwise `a`. -/
def jsOr (a b : ℝ) : ℝ := if a = 0 then b else a

/-- Electron count assigned to the orbital with magnetic number `m_` by
`sampleSubshell` of orbitalSampler.js:
`min(2, ceil(e·(m+l+1)/e) − floor(e·(m+l)/e) || floor(total/(2l+1)))`
with `e = totalElectrons/(2l+1)`. -/
def electronsInOrbital (l m_ : ℤ) (totalElectrons : ℝ) : ℝ :=
  let electronsPerOrbital := totalElectrons / (2 * (l:ℝ) + 1)
  min 2 (jsOr
    (((⌈electronsPerOrbital * ((m_:ℝ) + (l:ℝ) + 1) / electronsPerOrbital⌉ : ℤ) : ℝ)
      - ((⌊electronsPerOrbital * ((m_:ℝ) + (l:ℝ)) / electronsPerOrbital⌋ : ℤ) : ℝ))
    ((⌊totalElectrons / (2 * (l:ℝ) + 1)⌋ : ℤ) : ℝ))

/-- One entry of the list returned by `sampleSubshell`. -/
structure SubshellEntry where
  m : ℤ
  electrons : ℝ
  points : List ℝ

/-- Model of `sampleSubshell(n, l, totalElectrons, pointsPerElectron, Z)`
from orbitalSampler.js: for `m` from `−l` to `l`, compute the electron
count, and when it is positive sample
`ceil(pointsPerElectron · electrons)` points for that orbital. -/
def sampleSubshell (n l : ℤ) (totalElectrons pointsPerElectron Z : ℝ)
    (rng : ℕ → ℝ) : List SubshellEntry :=
  ((List.range (2 * l + 1).toNat).map (fun j => -l + (j:ℤ))).filterMap (fun m_ =>
    let e := electronsInOrbital l m_ totalElectrons
    if e > 0 then
      some ⟨m_, e, sampleOrbital n l m_ (⌈pointsPerElectron * e⌉).toNat Z rng⟩
    else none)

/-- The all-zero random stream, used to exercise the model at concrete
inputs. -/
def rngZero : ℕ → ℝ := fun _ => 0

/-- A concrete random stream: first draw 1 (candidate radius `maxR`),
second draw 1/2 (candidate polar angle `π/2`), all further draws 0. -/
def rngC3 : ℕ → ℝ := fun i => if i = 0 then 1 else if i = 1 then 1/2 else 0

/-- A concrete mid-run sampler state whose working ceiling
`maxP = e⁻⁸/π` underestimates the weighted density of the next
candidate. -/
def sC3 : SamplerState := ⟨[], 1500, Real.exp (-8) / Real.pi, 0⟩

/-- A concrete mid-run sampler state: 10 accepted points (30 buffer
entries) after 1999 attempts, working ceiling 1. -/
def sC6 : SamplerState := ⟨List.replicate 30 0, 1999, 1, 0⟩

/-- C10: `legendrePolynomial(l, m, x)` depends only on the absolute value
of `m`: for every `l`, `m`, `x` it equals `legendrePolynomial(l, −m, x)`,
so the angular magnitude used by `sphericalHarmonic` is the same for a
`±m` pair. -/
theorem c10_legendre_abs_m (l m : ℤ) (x : ℝ) :
    legendrePolynomial l m x = legendrePolynomial l (-m) x := by
  simp only [legendrePolynomial, abs_neg]

/-- C5: for every real `r`, `Z` and invalid quantum numbers (`n < 1`, or
`l < 0`, or `l ≥ n`), `radialWaveFunction(n, l, r, Z)` returns 0 rather
than throwing; likewise for every `θ`, `φ` and invalid (`l < 0` or
`|m| > l`), `sphericalHarmonic(l, m, θ, φ)` returns 0 (the warning
diagnostic is a console side effect outside the value model). -/
theorem c5_invalid_quantum_numbers :
    (∀ (n l : ℤ) (r Z : ℝ), (n < 1 ∨ l < 0 ∨ l ≥ n) → radialWaveFunction n l r Z = 0)
    ∧ (∀ (l m : ℤ) (theta phi : ℝ), (l < 0 ∨ |m| > l) →
        sphericalHarmonic l m theta phi = 0) := by
  constructor
  · intro n l r Z h
    unfold radialWaveFunction
    rw [if_pos h]
  · intro l m theta phi h
    unfold sphericalHarmonic
    rw [if_pos h]

/-- Witness for C5: at the concrete invalid tuples `n = 0, l = 0` and
`l = 0, m = 1` the hypotheses hold and both functions return 0. -/
theorem c5_invalid_quantum_numbers_witness :
    ((0:ℤ) < 1 ∧ radialWaveFunction 0 0 1 1 = 0)
    ∧ (|(1:ℤ)| > 0 ∧ sphericalHarmonic 0 1 0 0 = 0) :=
  ⟨⟨by norm_num, c5_invalid_quantum_numbers.1 0 0 1 1 (Or.inl (by norm_num))⟩,
   ⟨by norm_num, c5_invalid_quantum_numbers.2 0 1 0 0 (Or.inr (by norm_num))⟩⟩

/-- C7 (code evaluated at the failing input): the code's
`radialNormalization(1,0,1)` is 2 as the claim states, but
`radialNormalization(2,0,1)` evaluates to `√(1/32)` — the denominator
cubes `(n+l)!` — which is not the claimed `1/√2`; the repository's own
test suite expects `1/√2` to five decimals, so the code contradicts its
tests. -/
lemma radialNormalization_1_0_1 : radialNormalization 1 0 1 = 2 := by
  unfold radialNormalization factorial BOHR_RADIUS
  norm_num
  rw [show (4:ℝ) = 2^2 by norm_num, Real.sqrt_sq (by norm_num)]

theorem c7_radialNormalization_eval :
    radialNormalization 1 0 1 = 2
    ∧ radialNormalization 2 0 1 = Real.sqrt (1/32)
    ∧ Real.sqrt (1/32) ≠ 1 / Real.sqrt 2 := by
  refine ⟨radialNormalization_1_0_1, ?_, ?_⟩
  · unfold radialNormalization factorial BOHR_RADIUS
    norm_num [Nat.factorial]
  · intro h
    rw [show (1:ℝ) / Real.sqrt 2 = Real.sqrt (1/2) by
      rw [one_div, one_div, ← Real.sqrt_inv]] at h
    have h2 := (Real.sqrt_inj (by norm_num) (by norm_num)).mp h
    norm_num at h2

/-- One attempt either appends exactly one Cartesian triple (three floats)
or leaves the buffer unchanged. -/
lemma sampleStep_points_length (n l m : ℤ) (Z maxR : ℝ) (rng : ℕ → ℝ)
    (s : SamplerState) :
    (sampleStep n l m Z maxR rng s).points.length = s.points.length + 3
    ∨ (sampleStep n l m Z maxR rng s).points.length = s.points.length := by
  by_cases h : rng (s.ridx + 3) * s.maxP < candidateWeightedP n l m Z maxR rng s.ridx
  · left; simp [sampleStep, h]
  · right; simp [sampleStep, h]

/-- Each attempt increments the attempt counter by one. -/
lemma sampleStep_attempts (n l m : ℤ) (Z maxR : ℝ) (rng : ℕ → ℝ)
    (s : SamplerState) :
    (sampleStep n l m Z maxR rng s).attempts = s.attempts + 1 := by
  simp [sampleStep]

/-- Loop invariant: a buffer that starts no longer than `numPoints·3` with
length a multiple of 3 stays so (the guard stops appends once the buffer
is full, and appends come in whole triples). -/
lemma sampleLoop_length_invariant (n l m : ℤ) (Z maxR : ℝ) (rng : ℕ → ℝ)
    (numPoints : ℕ) (fuel : ℕ) (s : SamplerState)
    (h1 : s.points.length ≤ numPoints * 3) (h2 : 3 ∣ s.points.length) :
    (sampleLoop n l m Z maxR rng numPoints fuel s).points.length ≤ numPoints * 3
    ∧ 3 ∣ (sampleLoop n l m Z maxR rng numPoints fuel s).points.length := by
  induction fuel generalizing s with
  | zero => exact ⟨h1, h2⟩
  | succ fuel ih =>
    rw [sampleLoop]
    by_cases hg : s.points.length < numPoints * 3
    · rw [if_pos hg]
      rcases sampleStep_points_length n l m Z maxR rng s with h | h
      · exact ih _ (by omega) (by omega)
      · exact ih _ (by omega) (by omega)
    · rw [if_neg hg]
      exact ⟨h1, h2⟩

/-- The loop makes at most `fuel` further attempts. -/
lemma sampleLoop_attempts (n l m : ℤ) (Z maxR : ℝ) (rng : ℕ → ℝ)
    (numPoints : ℕ) (fuel : ℕ) (s : SamplerState) :
    (sampleLoop n l m Z maxR rng numPoints fuel s).attempts ≤ s.attempts + fuel := by
  induction fuel generalizing s with
  | zero => simp [sampleLoop]
  | succ fuel ih =>
    rw [sampleLoop]
    by_cases hg : s.points.length < numPoints * 3
    · rw [if_pos hg]
      have h := ih (sampleStep n l m Z maxR rng s)
      rw [sampleStep_attempts] at h
      omega
    · rw [if_neg hg]
      omega

/-- C1: for every `n`, `l`, `m`, `Z` and every `pointCount ≥ 0`, the
buffer returned by `sampleOrbital(n, l, m, pointCount, Z)` has length at
most `pointCount·3` and its length is always a multiple of 3. -/
theorem c1_sampleOrbital_length (n l m : ℤ) (Z : ℝ) (rng : ℕ → ℝ)
    (pointCount : ℕ) :
    (sampleOrbital n l m pointCount Z rng).length ≤ pointCount * 3
    ∧ 3 ∣ (sampleOrbital n l m pointCount Z rng).length := by
  simpa [sampleOrbital, sampleOrbitalRun] using
    sampleLoop_length_invariant n l m Z (maxRadialExtent n l Z) rng pointCount
      (pointCount * 100)
      ⟨[], 0, estimateMaxProbability rng n l m Z (maxRadialExtent n l Z), 20000⟩
      (by simp) (by simp)

/-- C2: for every `n`, `l`, `m`, `Z` and `numPoints`, the sampler stops
after at most `numPoints·100` attempts regardless of how many points were
accepted, and the value returned is exactly the buffer accumulated by the
run — a shortfall returns the shorter buffer as-is rather than failing. -/
theorem c2_sampleOrbital_attempt_budget (n l m : ℤ) (Z : ℝ) (rng : ℕ → ℝ)
    (numPoints : ℕ) :
    (sampleOrbitalRun n l m numPoints Z rng).attempts ≤ numPoints * 100
    ∧ sampleOrbital n l m numPoints Z rng
        = (sampleOrbitalRun n l m numPoints Z rng).points := by
  refine ⟨?_, rfl⟩
  simpa [sampleOrbitalRun] using
    sampleLoop_attempts n l m Z (maxRadialExtent n l Z) rng numPoints
      (numPoints * 100)
      ⟨[], 0, estimateMaxProbability rng n l m Z (maxRadialExtent n l Z), 20000⟩

/-- The ceiling after one attempt, phrased on the step's own output
buffer: doubled exactly when the post-acceptance write index is below
`attempts·0.01`. -/
lemma sampleStep_maxP (n l m : ℤ) (Z maxR : ℝ) (rng : ℕ → ℝ)
    (s : SamplerState) :
    (sampleStep n l m Z maxR rng s).maxP =
      if s.attempts + 1 > 1000 ∧
          (((sampleStep n l m Z maxR rng s).points.length : ℝ)
            < ((s.attempts + 1 : ℕ) : ℝ) * 0.01)
      then s.maxP * 2 else s.maxP := by
  simp only [sampleStep]

/-- C6 (amended): the working `maxP` is doubled at the end of an attempt
exactly when more than 1000 attempts have been made and the acceptance
rate measured after that attempt's acceptance decision — accepted points
(a third of the buffer length) divided by attempts — is below 1/300, not
the claimed 1%: the source compares the flat buffer index, which counts
three entries per accepted point, against `attempts·0.01`. -/
theorem c6_adaptive_doubling_rate (n l m : ℤ) (Z maxR : ℝ) (rng : ℕ → ℝ)
    (s : SamplerState) :
    (sampleStep n l m Z maxR rng s).maxP =
      if s.attempts + 1 > 1000 ∧
          (((sampleStep n l m Z maxR rng s).points.length : ℝ) / 3)
              / ((s.attempts + 1 : ℕ) : ℝ) < 1 / 300
      then s.maxP * 2 else s.maxP := by
  rw [sampleStep_maxP]
  refine if_congr (and_congr_right fun ha => ?_) rfl rfl
  generalize (((sampleStep n l m Z maxR rng s).points.length : ℝ)) = L
  have hA : (0:ℝ) < ((s.attempts + 1 : ℕ) : ℝ) := by positivity
  rw [div_div, div_lt_div_iff₀ (by positivity) (by norm_num)]
  constructor
  · intro h
    linarith
  · intro h
    linarith

/-- A key present in the cache is still found, with the same value, after
entries are appended on the right. -/
lemma cacheLookup_append_of_some (c : ProbCache) (d : ProbCache) (k : CacheKey)
    (v : ℝ) (h : cacheLookup c k = some v) : cacheLookup (c ++ d) k = some v := by
  induction c with
  | nil => simp [cacheLookup] at h
  | cons hd tl ih =>
    obtain ⟨k', v'⟩ := hd
    simp only [cacheLookup, List.cons_append] at h ⊢
    by_cases hk : k' = k
    · rw [if_pos hk] at h ⊢
      exact h
    · rw [if_neg hk] at h ⊢
      exact ih h

/-- Appending a fresh binding makes its key found with its value. -/
lemma cacheLookup_append_of_none (c : ProbCache) (k : CacheKey) (v : ℝ)
    (h : cacheLookup c k = none) : cacheLookup (c ++ [(k, v)]) k = some v := by
  induction c with
  | nil => simp [cacheLookup]
  | cons hd tl ih =>
    obtain ⟨k', v'⟩ := hd
    simp only [cacheLookup, List.cons_append] at h ⊢
    by_cases hk : k' = k
    · rw [if_pos hk] at h
      exact absurd h (by simp)
    · rw [if_neg hk] at h ⊢
      exact ih h

/-- C9: the max-probability cache computes an entry at most once per key
`(n,l,m,Z)`: a second `getMaxProbability` call with the same key — even
with a different random stream, so no recomputation can affect the result
— returns exactly the value stored by the first call and leaves the cache
untouched; no call ever removes or changes an existing entry, and only
the explicit `clearProbabilityCache` empties the cache. -/
theorem c9_cache_compute_once (rng rng2 : ℕ → ℝ) (n l m : ℤ) (Z : ℝ)
    (c : ProbCache) :
    getMaxProbability rng2 n l m Z (getMaxProbability rng n l m Z c).2
        = ((getMaxProbability rng n l m Z c).1, (getMaxProbability rng n l m Z c).2)
    ∧ (∀ (k : CacheKey) (v : ℝ), cacheLookup c k = some v →
        cacheLookup (getMaxProbability rng n l m Z c).2 k = some v)
    ∧ clearProbabilityCache = ([] : ProbCache) := by
  refine ⟨?_, ?_, rfl⟩
  · cases h : cacheLookup c (n, l, m, Z) with
    | some v => simp [getMaxProbability, h]
    | none =>
        have h2 := cacheLookup_append_of_none c (n, l, m, Z)
          (findMaxProbability rng n l m Z 2000) h
        simp [getMaxProbability, h, h2]
  · intro k v hv
    cases h : cacheLookup c (n, l, m, Z) with
    | some w => simp [getMaxProbability, h, hv]
    | none =>
        simp only [getMaxProbability, h]
        exact cacheLookup_append_of_some c _ k v hv

/-- Witness for C9: a concrete one-entry cache; its entry survives a
`getMaxProbability` call unchanged. -/
theorem c9_cache_compute_once_witness :
    cacheLookup [(((1:ℤ), (0:ℤ), (0:ℤ), (1:ℝ)), (5:ℝ))] (1, 0, 0, 1) = some 5
    ∧ cacheLookup (getMaxProbability (fun _ => 0) 1 0 0 1
        [((1, 0, 0, 1), 5)]).2 (1, 0, 0, 1) = some 5 := by
  have h : cacheLookup [(((1:ℤ), (0:ℤ), (0:ℤ), (1:ℝ)), (5:ℝ))] (1, 0, 0, 1) = some 5 := by
    simp [cacheLookup]
  exact ⟨h, (c9_cache_compute_once (fun _ => 0) (fun _ => 0) 1 0 0 1 _).2.1 _ _ h⟩

/-- An invalid magnetic number makes the density vanish (its angular
factor is 0). -/
lemma probabilityDensity_of_abs_m_gt (n l m : ℤ) (r theta phi Z : ℝ)
    (h : |m| > l) : probabilityDensity n l m r theta phi Z = 0 := by
  have hY : sphericalHarmonic l m theta phi = 0 := by
    unfold sphericalHarmonic
    rw [if_pos (Or.inr h)]
  simp [probabilityDensity, hY]

/-- The weighted density of any candidate for an invalid magnetic number
is 0. -/
lemma candidateWeightedP_of_abs_m_gt (n l m : ℤ) (Z maxR : ℝ) (rng : ℕ → ℝ)
    (i : ℕ) (h : |m| > l) : candidateWeightedP n l m Z maxR rng i = 0 := by
  simp only [candidateWeightedP]
  rw [probabilityDensity_of_abs_m_gt _ _ _ _ _ _ _ h, zero_mul]

/-- C3 (amended): a candidate is appended exactly when the attempt's
uniform draw satisfies `uniform·maxP < P·r²·sinθ` with `maxP` the working
ceiling of that attempt, and — the draw and the ceiling being nonnegative
— a candidate with zero weighted density is never accepted; an accepted
candidate's weighted density exceeds `uniform·maxP`, but it can exceed
the ceiling `maxP` itself when the estimate underestimates the true
maximum (see the counterexample). -/
theorem c3_rejection_test (n l m : ℤ) (Z maxR : ℝ) (rng : ℕ → ℝ)
    (s : SamplerState) :
    ((sampleStep n l m Z maxR rng s).points.length = s.points.length + 3
      ↔ rng (s.ridx + 3) * s.maxP < candidateWeightedP n l m Z maxR rng s.ridx)
    ∧ (0 ≤ rng (s.ridx + 3) → 0 ≤ s.maxP →
        candidateWeightedP n l m Z maxR rng s.ridx = 0 →
        (sampleStep n l m Z maxR rng s).points = s.points) := by
  constructor
  · by_cases h : rng (s.ridx + 3) * s.maxP < candidateWeightedP n l m Z maxR rng s.ridx
    · simp [sampleStep, h]
    · simp [sampleStep, h, self_eq_add_right]
  · intro hu hmaxP hw
    have hacc : ¬ (rng (s.ridx + 3) * s.maxP
        < candidateWeightedP n l m Z maxR rng s.ridx) := by
      rw [hw]
      exact not_lt.mpr (mul_nonneg hu hmaxP)
    simp [sampleStep, hacc]

/-- Witness for C3 (amended), at draw 0, ceiling 1 and the invalid
orbital `l = 0, m = 1` whose candidates all have weighted density 0: the
candidate is rejected. -/
theorem c3_rejection_test_witness :
    ((0:ℝ) ≤ 0) ∧ ((0:ℝ) ≤ 1)
    ∧ candidateWeightedP 1 0 1 1 4 rngZero 0 = 0
    ∧ (sampleStep 1 0 1 1 4 rngZero ⟨[], 0, 1, 0⟩).points = [] :=
  ⟨le_refl 0, zero_le_one,
   candidateWeightedP_of_abs_m_gt 1 0 1 1 4 rngZero 0 (by norm_num),
   (c3_rejection_test 1 0 1 1 4 rngZero ⟨[], 0, 1, 0⟩).2
     (le_of_eq rfl) zero_le_one
     (candidateWeightedP_of_abs_m_gt 1 0 1 1 4 rngZero 0 (by norm_num))⟩

/-- The concrete candidate of `rngC3` for the 1s orbital: radius
`maxR = 4`, polar angle `π/2`, azimuth 0, weighted density
`16·e⁻⁸/π`. -/
lemma candidateWeightedP_c3_eval :
    candidateWeightedP 1 0 0 1 (maxRadialExtent 1 0 1) rngC3 0
      = 16 * Real.exp (-8) / Real.pi := by
  have hmaxR : maxRadialExtent 1 0 1 = 4 := by
    unfold maxRadialExtent BOHR_RADIUS
    norm_num
  have hr : candidateR (maxRadialExtent 1 0 1) rngC3 0 = 4 := by
    unfold candidateR rngC3
    rw [hmaxR]
    norm_num [Real.one_rpow]
  have htheta : candidateTheta rngC3 0 = Real.pi / 2 := by
    unfold candidateTheta rngC3
    norm_num [Real.arccos_zero]
  have hphi : candidatePhi rngC3 0 = 0 := by
    unfold candidatePhi rngC3
    norm_num
  have hR : radialWaveFunction 1 0 4 1 = 2 * Real.exp (-4) := by
    unfold radialWaveFunction
    rw [if_neg (by norm_num)]
    rw [radialNormalization_1_0_1]
    norm_num [BOHR_RADIUS, laguerrePolynomial]
  have hP : legendrePolynomial 0 |(0:ℤ)| (Real.cos (Real.pi/2)) = 1 := by
    unfold legendrePolynomial
    norm_num
  have hY : sphericalHarmonic 0 0 (Real.pi/2) 0
      = Real.sqrt (1/(4*Real.pi)) := by
    unfold sphericalHarmonic
    rw [if_neg (by norm_num), if_neg (by norm_num), if_neg (by norm_num), hP,
      mul_one]
    unfold sphericalHarmonicNormalization factorial
    norm_num
  simp only [candidateWeightedP]
  rw [hr, htheta, hphi, Real.sin_pi_div_two]
  unfold probabilityDensity
  rw [hR, hY]
  have e1 : Real.exp (-4) * Real.exp (-4) = Real.exp (-8) := by
    rw [← Real.exp_add]
    norm_num
  have e2 : Real.sqrt (1/(4*Real.pi)) * Real.sqrt (1/(4*Real.pi))
      = 1/(4*Real.pi) := Real.mul_self_sqrt (by positivity)
  linear_combination (16 / Real.pi) * e1
    + 64 * Real.exp (-4) * Real.exp (-4) * e2

/-- C3 counterexample: a concrete attempt whose candidate is accepted —
three coordinates are appended — although its weighted density
`16·e⁻⁸/π` strictly exceeds the working ceiling `e⁻⁸/π` in effect for
that attempt, refuting "no accepted point's weighted density exceeds the
ceiling used for its run". -/
theorem c3_ceiling_exceeded_counterexample :
    (sampleStep 1 0 0 1 (maxRadialExtent 1 0 1) rngC3 sC3).points.length
        = sC3.points.length + 3
    ∧ candidateWeightedP 1 0 0 1 (maxRadialExtent 1 0 1) rngC3 sC3.ridx
        > sC3.maxP := by
  have hridx : sC3.ridx = 0 := rfl
  have hw : candidateWeightedP 1 0 0 1 (maxRadialExtent 1 0 1) rngC3 sC3.ridx
      = 16 * Real.exp (-8) / Real.pi := by
    rw [hridx]
    exact candidateWeightedP_c3_eval
  have hgt : 16 * Real.exp (-8) / Real.pi > sC3.maxP := by
    show _ > Real.exp (-8) / Real.pi
    rw [gt_iff_lt, div_lt_div_iff₀ Real.pi_pos Real.pi_pos]
    nlinarith [Real.exp_pos (-8), Real.pi_pos,
      mul_pos (Real.exp_pos (-8)) Real.pi_pos]
  have hacc : rngC3 (sC3.ridx + 3) * sC3.maxP
      < candidateWeightedP 1 0 0 1 (maxRadialExtent 1 0 1) rngC3 sC3.ridx := by
    rw [hw]
    have h3 : rngC3 (sC3.ridx + 3) = 0 := rfl
    rw [h3, zero_mul]
    positivity
  refine ⟨?_, by rw [hw]; exact hgt⟩
  simp [sampleStep, hacc]

/-- C6 counterexample: after this attempt 2000 attempts have been made
and the acceptance rate is 10/2000 = 0.5%, below the claimed 1%
threshold, yet the ceiling is not doubled — the source compares the
buffer index 30 against `2000·0.01 = 20`. -/
theorem c6_rate_counterexample :
    sC6.attempts + 1 > 1000
    ∧ ((sC6.points.length : ℝ) / 3) / ((sC6.attempts + 1 : ℕ) : ℝ) < 1 / 100
    ∧ (sampleStep 1 0 1 1 4 rngZero sC6).maxP = sC6.maxP
    ∧ sC6.maxP ≠ 2 * sC6.maxP := by
  refine ⟨by norm_num [sC6], by norm_num [sC6], ?_, by norm_num [sC6]⟩
  have hw : candidateWeightedP 1 0 1 1 4 rngZero sC6.ridx = 0 :=
    candidateWeightedP_of_abs_m_gt 1 0 1 1 4 rngZero sC6.ridx (by norm_num)
  have hacc : ¬ (rngZero (sC6.ridx + 3) * sC6.maxP
      < candidateWeightedP 1 0 1 1 4 rngZero sC6.ridx) := by
    rw [hw]
    have h3 : rngZero (sC6.ridx + 3) = 0 := rfl
    rw [h3, zero_mul]
    exact lt_irrefl 0
  have hcond : ¬ (sC6.attempts + 1 > 1000
      ∧ ((sC6.points.length : ℝ) < ((sC6.attempts + 1 : ℕ) : ℝ) * 0.01)) := by
    rintro ⟨-, h2⟩
    norm_num [sC6] at h2
  simp only [sampleStep]
  rw [if_neg hacc, if_neg hcond]

/-- C8 (amended): the conversions are mutually inverse for `r > 0`,
`θ ∈ (0, π)` and `φ ∈ [0, π]` — the range on which `atan2` reproduces
`φ` exactly; for `φ ∈ (π, 2π)` the round trip returns the representative
`φ − 2π` (see the counterexample), and at the poles `θ ∈ {0, π}` the
azimuth collapses; at the origin `cartesianToSpherical` returns
`(0,0,0)` by convention. -/
theorem c8_coordinate_roundtrip :
    (∀ r theta phi : ℝ, 0 < r → 0 < theta → theta < Real.pi →
      0 ≤ phi → phi ≤ Real.pi →
      cartesianToSpherical (sphericalToCartesian r theta phi).x
          (sphericalToCartesian r theta phi).y
          (sphericalToCartesian r theta phi).z = ⟨r, theta, phi⟩)
    ∧ cartesianToSpherical 0 0 0 = ⟨0, 0, 0⟩ := by
  constructor
  · intro r theta phi hr ht0 htpi hp0 hppi
    have hsθ : 0 < Real.sin theta := Real.sin_pos_of_pos_of_lt_pi ht0 htpi
    simp only [sphericalToCartesian, cartesianToSpherical]
    have hsq : r * Real.sin theta * Real.cos phi * (r * Real.sin theta * Real.cos phi)
        + r * Real.sin theta * Real.sin phi * (r * Real.sin theta * Real.sin phi)
        + r * Real.cos theta * (r * Real.cos theta) = r ^ 2 := by
      have h1 := Real.sin_sq_add_cos_sq theta
      have h2 := Real.sin_sq_add_cos_sq phi
      linear_combination r^2 * (Real.sin theta)^2 * h2 + r^2 * h1
    rw [hsq, Real.sqrt_sq hr.le, if_neg hr.ne']
    have hth : Real.arccos (r * Real.cos theta / r) = theta := by
      rw [mul_div_cancel_left₀ _ hr.ne']
      exact Real.arccos_cos ht0.le htpi.le
    have hph : atan2 (r * Real.sin theta * Real.sin phi)
        (r * Real.sin theta * Real.cos phi) = phi := by
      unfold atan2
      have hc : 0 < r * Real.sin theta := mul_pos hr hsθ
      have hz : (⟨r * Real.sin theta * Real.cos phi,
          r * Real.sin theta * Real.sin phi⟩ : ℂ)
          = ((r * Real.sin theta : ℝ) : ℂ)
            * (Real.cos phi + Real.sin phi * Complex.I) := by
        rw [Complex.mk_eq_add_mul_I]
        push_cast
        ring
      rw [hz, Complex.arg_real_mul _ hc, Complex.ofReal_cos, Complex.ofReal_sin]
      exact Complex.arg_cos_add_sin_mul_I
        (Set.mem_Ioc.mpr ⟨by linarith [Real.pi_pos], hppi⟩)
    rw [hth, hph]
  · simp [cartesianToSpherical]

/-- Witness for C8 (amended): at `r = 1`, `θ = φ = π/2` the hypotheses
hold and the round trip is exact. -/
theorem c8_coordinate_roundtrip_witness :
    ((0:ℝ) < 1 ∧ 0 < Real.pi / 2 ∧ Real.pi / 2 < Real.pi
      ∧ (0:ℝ) ≤ Real.pi / 2 ∧ Real.pi / 2 ≤ Real.pi)
    ∧ cartesianToSpherical (sphericalToCartesian 1 (Real.pi/2) (Real.pi/2)).x
        (sphericalToCartesian 1 (Real.pi/2) (Real.pi/2)).y
        (sphericalToCartesian 1 (Real.pi/2) (Real.pi/2)).z
      = ⟨1, Real.pi/2, Real.pi/2⟩ :=
  ⟨⟨by norm_num, by positivity, by linarith [Real.pi_pos], by positivity,
    by linarith [Real.pi_pos]⟩,
   c8_coordinate_roundtrip.1 1 (Real.pi/2) (Real.pi/2) (by norm_num)
     (by positivity) (by linarith [Real.pi_pos]) (by positivity)
     (by linarith [Real.pi_pos])⟩

/-- C8 counterexample: `φ = 3π/2` lies in the claimed domain `[0, 2π)`,
but the round trip at `r = 1`, `θ = π/2` returns azimuth `−π/2 ≠ 3π/2`
because `atan2` takes values in `(−π, π]`. -/
theorem c8_roundtrip_counterexample :
    ((0:ℝ) ≤ 3 * Real.pi / 2 ∧ 3 * Real.pi / 2 < 2 * Real.pi)
    ∧ (cartesianToSpherical
        (sphericalToCartesian 1 (Real.pi/2) (3 * Real.pi/2)).x
        (sphericalToCartesian 1 (Real.pi/2) (3 * Real.pi/2)).y
        (sphericalToCartesian 1 (Real.pi/2) (3 * Real.pi/2)).z).phi
      ≠ 3 * Real.pi / 2 := by
  have hpi := Real.pi_pos
  refine ⟨⟨by positivity, by linarith⟩, ?_⟩
  have hx : sphericalToCartesian 1 (Real.pi/2) (3 * Real.pi/2)
      = ⟨0, -1, 0⟩ := by
    unfold sphericalToCartesian
    rw [show 3 * Real.pi / 2 = Real.pi / 2 + Real.pi by ring,
      Real.cos_add_pi, Real.sin_add_pi, Real.sin_pi_div_two,
      Real.cos_pi_div_two]
    simp [Vec3.mk.injEq]
  rw [hx]
  have harg : atan2 (-1) 0 = -(Real.pi / 2) := by
    unfold atan2
    rw [show (⟨0, -1⟩ : ℂ) = -Complex.I by apply Complex.ext <;> simp]
    exact Complex.arg_neg_I
  have hroot : Real.sqrt ((0:ℝ) * 0 + (-1) * (-1) + 0 * 0) = 1 := by
    norm_num
  simp only [cartesianToSpherical, hroot]
  rw [if_neg one_ne_zero]
  simp only [harg]
  intro h
  linarith

/-- The electron count `sampleSubshell` assigns to the single `m = 0`
orbital of an s subshell holding 2 electrons: the Hund expression
`ceil(e·1/e) − floor(e·0/e)` collapses to 1. -/
lemma electronsInOrbital_s2 : electronsInOrbital 0 0 2 = 1 := by
  unfold electronsInOrbital jsOr
  norm_num

/-- C4 (code evaluated at the failing input): for a full s subshell
(`n = 1, l = 0, totalElectrons = 2`) the returned entries carry electron
counts `[1]`, whose sum 1 is not the requested total 2 — the code's
distribution expression assigns one electron to every orbital whenever
the subshell is nonempty, contradicting its own "distribute electrons"
intent and the spec. -/
theorem c4_subshell_electrons_eval :
    ((sampleSubshell 1 0 2 5 1 rngZero).map (fun e => e.electrons)) = [1]
    ∧ ((sampleSubshell 1 0 2 5 1 rngZero).map (fun e => e.electrons)).sum
        ≠ 2 := by
  have h : ((sampleSubshell 1 0 2 5 1 rngZero).map (fun e => e.electrons))
      = [1] := by
    unfold sampleSubshell
    norm_num [List.range_succ, electronsInOrbital_s2, List.filterMap_cons,
      List.filterMap_nil]
  refine ⟨h, ?_⟩
  rw [h]
  norm_num

end

end OpusAtom
